import Mathlib

set_option autoImplicit false

/-!
Shallow embedding of `src/selenium_parser.py` (2GIS parser).

Modelling conventions:
* Python strings are modelled as `List Char` where character-level operations
  matter (regex digit stripping, substring tests, lower-casing), and as `String`
  where only equality / concatenation is used.
* Python dict-shaped records become structures.
* Browser / network effects (Selenium page visits, API responses) become
  explicit oracle functions passed as arguments.
* Python ASCII case folding is modelled with `Char.toLower`; Python decimal
  digits (`re.sub(r"\D", "", s)`) with `Char.isDigit`.
-/

namespace TwoGis

/-- Python `str.lower()` on a character list. -/
def toLowerL (l : List Char) : List Char := l.map Char.toLower

/-- Python `str.strip()`: drop leading and trailing whitespace. -/
def trimL (l : List Char) : List Char :=
  ((l.dropWhile Char.isWhitespace).reverse.dropWhile Char.isWhitespace).reverse

/-- Python substring containment `needle in hay`. -/
def isSubstr (needle : List Char) : List Char → Bool
  | [] => needle.isEmpty
  | c :: rest => needle.isPrefixOf (c :: rest) || isSubstr needle rest

/-- Python `str.split(sep)` for a one-character separator. -/
def splitOnChar (c : Char) : List Char → List (List Char)
  | [] => [[]]
  | x :: xs =>
    let r := splitOnChar c xs
    if x = c then [] :: r
    else
      match r with
      | h :: t => (x :: h) :: t
      | [] => [[x]]

/-- Python `str.capitalize()`: first char upper, rest lower. -/
def capitalize (s : String) : String :=
  match s.toList with
  | [] => ""
  | c :: rest => String.mk (c.toUpper :: rest.map Char.toLower)

/-- Core of `_normalize_phone` after the digit string has been computed.
Mirrors selenium_parser.py lines 686-694 (identical copy at 249-257):
empty digits give `""`; 11 digits starting `7`/`8` give `+7` + last 10;
10 digits get `+7` prepended; otherwise `+` + digits unless the raw input
already starts with `+`, in which case the input is returned unchanged. -/
def normalize_core (phone digits : List Char) : List Char :=
  if digits = [] then []
  else if digits.length = 11 ∧ (digits.head? = some '7' ∨ digits.head? = some '8') then
    '+' :: '7' :: digits.tail
  else if digits.length = 10 then
    '+' :: '7' :: digits
  else if phone.head? ≠ some '+' then
    '+' :: digits
  else phone

/-- `SeleniumParser._normalize_phone` / `TwoGisAPI._normalize_phone`
(selenium_parser.py lines 682-694 and 245-257, byte-identical bodies).
`if not phone: return ""` then `digits = re.sub(r"\D", "", phone)`. -/
def normalize_phone (phone : List Char) : List Char :=
  if phone = [] then [] else normalize_core phone (phone.filter Char.isDigit)

/-- String wrapper for `_normalize_phone`, used by `parse_api_item`. -/
def normalize_phone_str (s : String) : String := String.mk (normalize_phone s.toList)

/-- Link cleaning in `get_search_links_with_pagination` (line 454):
`clean_href = href.split("?")[0]`, i.e. the prefix before the first `?`. -/
def canonicalize (u : List Char) : List Char := u.takeWhile (fun c => !(c == '?'))

/-- Denylist inside `SeleniumParser._extract_websites` (lines 628-634). -/
def page_ignored_domains : List (List Char) :=
  ["2gis.", "google.", "yandex.", "vk.com", "t.me",
   "instagram.com", "facebook.com", "twitter.com", "ok.ru",
   "youtube.com", "whatsapp.com", "wa.me", "apple.com",
   "play.google.com", "apps.apple.com", "booking.com", "tripadvisor.",
   "delivery-club.ru", "eda.yandex", "zoon.ru", "yell.ru"].map String.toList

/-- Denylist inside `TwoGisAPI._is_ignored_domain` (lines 261-268);
same as the page list plus `onelink.me`. -/
def api_ignored_domains : List (List Char) :=
  ["2gis.", "google.", "yandex.", "vk.com", "t.me",
   "instagram.com", "facebook.com", "twitter.com", "ok.ru",
   "youtube.com", "whatsapp.com", "wa.me", "apple.com",
   "play.google.com", "apps.apple.com", "booking.com",
   "tripadvisor.", "delivery-club.ru", "eda.yandex",
   "zoon.ru", "yell.ru", "onelink.me"].map String.toList

/-- `TwoGisAPI._is_ignored_domain` (lines 259-270). -/
def is_ignored_domain (url : String) : Bool :=
  api_ignored_domains.any (fun d => isSubstr d (toLowerL url.toList))

/-- App-link vocabulary filtered in `_extract_websites` (line 657). -/
def app_keywords : List (List Char) :=
  ["скачать", "download", "app", "приложение"].map String.toList

/-- Link texts treated as explicit website labels (line 662). -/
def website_labels : List (List Char) :=
  ["сайт", "website", "веб-сайт"].map String.toList

/-- Loop state of `_extract_websites`: the ordered output list and the
`seen` set (modelled as a list). -/
structure WebsitesAcc where
  websites : List (List Char)
  seen : List (List Char)
  deriving DecidableEq, Repr

/-- One iteration of the link loop in `_extract_websites` (lines 642-673).
`href` is the raw attribute, `rawText` the raw visible text
(`link.text.lower().strip()` is applied here). -/
def websites_step (st : WebsitesAcc) (href rawText : List Char) : WebsitesAcc :=
  if href = [] then st
  else
    let text := trimL (toLowerL rawText)
    let hrefLower := toLowerL href
    if page_ignored_domains.any (fun d => isSubstr d hrefLower) then st
    else if app_keywords.any (fun kw => isSubstr kw text) then st
    else
      let isLikely :=
        website_labels.contains text ||
        (text.contains '.' && !(text.contains ' ') && decide (text.length > 3))
      if isLikely || decide (st.websites.length < 5) then
        if href ∈ st.seen then st
        else
          { websites := if isLikely then href :: st.websites else st.websites ++ [href],
            seen := href :: st.seen }
      else st

/-- `SeleniumParser._extract_websites` (lines 626-680): fold the link loop
over the page's `a[href^='http']` elements (given as href/text pairs in
document order) and keep the first 5 collected websites. -/
def extract_websites (links : List (List Char × List Char)) : List (List Char) :=
  (links.foldl (fun st l => websites_step st l.1 l.2) ⟨[], []⟩).websites.take 5

/-- Generic mail-provider domains (lines 613-614). -/
def generic_mail_domains : List (List Char) :=
  ["gmail.com", "yandex.ru", "mail.ru", "bk.ru", "list.ru",
   "inbox.ru", "yahoo.com", "hotmail.com", "outlook.com", "rambler.ru"].map String.toList

/-- `email.split("@")[1]` with the `IndexError` caught (lines 617-622):
`none` when the email has no `@`. -/
def email_domain (email : List Char) : Option (List Char) :=
  match splitOnChar '@' email with
  | _ :: d :: _ => some d
  | _ => none

/-- The email-domain fallback scan (lines 615-622): first email whose
domain part exists and is not a generic mail provider yields
`https://` + domain. -/
def fallback_website : List (List Char) → Option (List Char)
  | [] => none
  | e :: rest =>
    match email_domain e with
    | none => fallback_website rest
    | some d =>
      if toLowerL d ∈ generic_mail_domains then fallback_website rest
      else some ("https://".toList ++ d)

/-- Website portion of `_extract_company_details` (lines 606-622):
harvest websites from the page, and if none were found and at least one
email exists, append the email-domain fallback candidate. -/
def websites_with_fallback (links : List (List Char × List Char))
    (emails : List (List Char)) : List (List Char) :=
  let ws := extract_websites links
  if ws = [] ∧ emails ≠ [] then
    match fallback_website emails with
    | some w => ws ++ [w]
    | none => ws
  else ws

/-- The company record dict built by `_extract_company_details` /
`parse_api_item`.  `name`/`address` are `Option` because the Selenium path
initialises them to `None`; the API path always stores strings. -/
structure Record where
  name : Option String
  city : String
  country : String
  address : Option String
  phones : List String
  websites : List String
  emails : List String
  url : String
  deriving DecidableEq, Repr

/-- Python truthiness of the `name` value (`None` and `""` are falsy). -/
def name_truthy : Option String → Bool
  | none => false
  | some s => !(s == "")

/-- A contact entry of an API item (`contact.get("type")` / `("value")`). -/
structure Contact where
  ctype : String
  value : String
  deriving DecidableEq, Repr

/-- A contact group of an API item. -/
structure ContactGroup where
  contacts : List Contact
  deriving DecidableEq, Repr

/-- One `adm_div` entry: `div.get("type")` and `div.get("name")`. -/
structure AdmDiv where
  dtype : String
  dname : String
  deriving DecidableEq, Repr

/-- The fields of an API response item that `parse_api_item` reads. -/
structure ApiItem where
  name : String
  id : String
  address_name : Option String
  adm_div : List AdmDiv
  contact_groups : List ContactGroup
  deriving DecidableEq, Repr

/-- Address logic of `parse_api_item` (lines 212-221): `address_name` if
present, else the comma-joined names of `city`/`street` adm_div entries,
else the initial empty string. -/
def api_address (item : ApiItem) : String :=
  match item.address_name with
  | some a => a
  | none =>
    let parts :=
      (item.adm_div.filter (fun d => d.dtype == "city" || d.dtype == "street")).map AdmDiv.dname
    if parts = [] then "" else String.intercalate ", " parts

/-- One contact of the contact loop in `parse_api_item` (lines 224-241). -/
def apply_contact (r : Record) (c : Contact) : Record :=
  if c.ctype = "phone" then
    let normalized := normalize_phone_str c.value
    if normalized ≠ "" ∧ normalized ∉ r.phones then
      { r with phones := r.phones ++ [normalized] }
    else r
  else if c.ctype = "email" then
    if c.value ≠ "" ∧ c.value ∉ r.emails then
      { r with emails := r.emails ++ [c.value] }
    else r
  else if c.ctype = "website" then
    if c.value ≠ "" ∧ is_ignored_domain c.value = false then
      if c.value ∉ r.websites then { r with websites := r.websites ++ [c.value] }
      else r
    else r
  else r

/-- `TwoGisAPI.parse_api_item` (lines 199-243). -/
def parse_api_item (item : ApiItem) (city : String) : Record :=
  let base : Record :=
    { name := some item.name, city := capitalize city, country := "Россия",
      address := some (api_address item), phones := [], websites := [], emails := [],
      url := "https://2gis.ru/firm/" ++ item.id }
  item.contact_groups.foldl (fun r g => g.contacts.foldl apply_contact r) base

/-- One API search response: `result.items` and `result.total`. -/
structure ApiPage where
  items : List ApiItem
  total : Nat
  deriving Repr

/-- Inner item loop of `collect_items_via_api` (lines 741-746): append
parsed items with truthy names until the cap is reached. -/
def add_items (items : List Record) (pageItems : List ApiItem) (city : String)
    (maxItems : Nat) : List Record :=
  match pageItems with
  | [] => items
  | it :: rest =>
    if maxItems ≤ items.length then items
    else
      let parsed := parse_api_item it city
      if name_truthy parsed.name then add_items (items ++ [parsed]) rest city maxItems
      else add_items items rest city maxItems

/-- The `while` loop of `collect_items_via_api` (lines 722-755), with an
explicit fuel bound (the Python loop has no iteration ceiling of its own).
State: collected items, current page, consecutive-empty counter, and the
`total_found` hint captured from the first response. -/
def collect_loop (pages : Nat → ApiPage) (city : String) (maxItems : Nat) :
    Nat → List Record → Nat → Nat → Option Nat → List Record
  | 0, items, _, _, _ => items
  | fuel + 1, items, page, consecEmpty, totalFound =>
    if maxItems ≤ items.length then items
    else
      let resp := pages page
      let total := totalFound.getD resp.total
      if resp.items = [] then
        if 2 ≤ consecEmpty + 1 then items
        else collect_loop pages city maxItems fuel items (page + 1) (consecEmpty + 1) (some total)
      else
        let items2 := add_items items resp.items city maxItems
        if total ≤ items2.length then items2
        else collect_loop pages city maxItems fuel items2 (page + 1) 0 (some total)

/-- `HybridParser.collect_items_via_api` (lines 708-758). -/
def collect_items_via_api (pages : Nat → ApiPage) (city : String)
    (maxItems fuel : Nat) : List Record :=
  collect_loop pages city maxItems fuel [] 1 0 none

/-- Link harvesting on one result page (lines 449-457): keep hrefs that are
non-empty and contain `/firm/`, strip the query part, and insert into the
running unique set (modelled as an insertion-ordered duplicate-free list). -/
def add_links (unique : List (List Char)) (hrefs : List (List Char)) : List (List Char) :=
  hrefs.foldl
    (fun acc href =>
      if href ≠ [] ∧ isSubstr "/firm/".toList href = true then
        let clean := canonicalize href
        if clean ∈ acc then acc else acc ++ [clean]
      else acc)
    unique

/-- The pagination loop of `get_search_links_with_pagination`
(lines 416-489).  `pages n` is the list of firm-link hrefs the browser
finds on page `n` (empty models the wait timing out), `endMarker n` models
the explicit no-more-results marker check.  The page counter increases on
every iteration, so fuel `maxPages + 1` reproduces the Python loop exactly. -/
def link_loop (pages : Nat → List (List Char)) (endMarker : Nat → Bool)
    (maxItems maxPages : Nat) :
    Nat → List (List Char) → Nat → Nat → List (List Char)
  | 0, unique, _, _ => unique
  | fuel + 1, unique, page, consecEmpty =>
    if unique.length < maxItems ∧ page ≤ maxPages then
      let hrefs := pages page
      if hrefs = [] then
        if 3 ≤ consecEmpty + 1 then unique
        else link_loop pages endMarker maxItems maxPages fuel unique (page + 1) (consecEmpty + 1)
      else
        let unique2 := add_links unique hrefs
        if unique.length < unique2.length then
          if endMarker page then unique2
          else link_loop pages endMarker maxItems maxPages fuel unique2 (page + 1) 0
        else
          if 3 ≤ consecEmpty + 1 then unique2
          else if endMarker page then unique2
          else link_loop pages endMarker maxItems maxPages fuel unique2 (page + 1) (consecEmpty + 1)
    else unique

/-- `SeleniumParser.get_search_links_with_pagination` (lines 403-493):
`max_pages = max_items // 12 + 5`, run the loop from page 1, return
`list(unique_links)[:max_items]`. -/
def get_search_links_with_pagination (pages : Nat → List (List Char))
    (endMarker : Nat → Bool) (maxItems : Nat) : List (List Char) :=
  let maxPages := maxItems / 12 + 5
  (link_loop pages endMarker maxItems maxPages (maxPages + 1) [] 1 0).take maxItems

/-- `max_retries = 3` in `parse_company_page` (line 497). -/
def max_retries : Nat := 3

/-- `SeleniumParser.parse_company_page` (lines 495-521): try the page visit
up to `max_retries` times; `attempts i` is the record extraction outcome of
attempt `i` (`none` models a navigation/timeout exception).  On the first
success the record gets `url` stored into it; after exhausting retries the
result is `none`. -/
def parse_company_page (attempts : Nat → Option Record) (url : String) : Option Record :=
  ((List.range max_retries).findSome? attempts).map (fun r => { r with url := url })

/-- `process_links_chunk` (lines 769-785): parse every URL of the chunk in
order, keeping the truthy (non-`None`) results. -/
def process_links_chunk (links : List String) (parsePage : String → Option Record) :
    List Record :=
  links.filterMap parsePage

/-- The final deduplication loop of `run_parser` (lines 958-965): keep a
record iff its url is non-empty and not seen before. -/
def dedupe_by_url : List Record → List String → List Record
  | [], _ => []
  | r :: rest, seen =>
    if r.url ≠ "" ∧ r.url ∉ seen then r :: dedupe_by_url rest (r.url :: seen)
    else dedupe_by_url rest seen

/-- `unique_results` as computed at the end of `run_parser`. -/
def unique_results (rs : List Record) : List Record := dedupe_by_url rs []

/-- `unique_links = list(set(all_links_to_parse))` (line 931), where
`all_links_to_parse` is the concatenation of the per-niche link lists.
The Python set is modelled as a first-occurrence-ordered dedup. -/
def merged_discovery (perNiche : List (List String)) : List String :=
  perNiche.flatten.dedup

/-- `links_to_parse` (lines 933-934): the deduplicated links minus the urls
already present among the API results. -/
def phase2_links (perNiche : List (List String)) (apiUrls : List String) : List String :=
  (merged_discovery perNiche).filter (fun l => decide (l ∉ apiUrls))

/-- `chunk_size = max(5, len(links_to_parse) // max_workers)` (line 940). -/
def chunk_size (total workers : Nat) : Nat := max 5 (total / workers)

/-- Slicing helper for `chunks = [links[i:i+cs] for i in range(0, len, cs)]`
(line 941), fuelled by the list length. -/
def chunks_aux (cs : Nat) : Nat → List String → List (List String)
  | 0, _ => []
  | _, [] => []
  | fuel + 1, x :: xs => ((x :: xs).take cs) :: chunks_aux cs fuel ((x :: xs).drop cs)

/-- The chunk partition handed to the phase-2 workers (line 941). -/
def make_chunks (l : List String) (cs : Nat) : List (List String) :=
  chunks_aux cs l.length l

/-- `TwoGisAPI.get_region_id`'s city map (lines 136-147). -/
def city_map : List (String × Nat) :=
  [("moscow", 32), ("novosibirsk", 1), ("saint-petersburg", 2), ("spb", 2),
   ("krasnoyarsk", 4), ("ekaterinburg", 3), ("kazan", 12), ("nizhny_novgorod", 7),
   ("samara", 8), ("omsk", 5), ("chelyabinsk", 6), ("rostov-on-don", 9),
   ("ufa", 10), ("volgograd", 11), ("perm", 13), ("voronezh", 14),
   ("krasnodar", 15), ("saratov", 16), ("tyumen", 17), ("tolyatti", 18),
   ("izhevsk", 19), ("barnaul", 20), ("irkutsk", 21), ("ulyanovsk", 22),
   ("khabarovsk", 23), ("vladivostok", 24), ("yaroslavl", 25), ("tomsk", 26),
   ("orenburg", 27), ("kemerovo", 28), ("ryazan", 29), ("naberezhnye_chelny", 30),
   ("penza", 31), ("almaty", 33), ("astana", 34), ("nur-sultan", 34),
   ("minsk", 35), ("kiev", 36), ("kyiv", 36), ("dubai", 37)]

/-- `city.lower().replace(" ", "_").replace("-", "_")` (line 148),
computed over the character list. -/
def normalize_city (city : String) : String :=
  String.mk ((toLowerL city.toList).map (fun c => if c = ' ' ∨ c = '-' then '_' else c))

/-- `TwoGisAPI.get_region_id` (lines 134-149). -/
def get_region_id (city : String) : Option Nat :=
  city_map.lookup (normalize_city city)

/-- The region/query parameter selection in `search_items` (lines 156-173):
a truthy region id is used with the query unchanged; otherwise region 32
(Moscow) with the city name appended to the free-text query. -/
def search_params (city query : String) : Nat × String :=
  match get_region_id city with
  | some rid => if rid ≠ 0 then (rid, query) else (32, query ++ " " ++ city)
  | none => (32, query ++ " " ++ city)

/-- A record literal helper for concrete test inputs. -/
def sample_record (nm : Option String) (u : String) : Record :=
  ⟨nm, "", "Россия", none, [], [], [], u⟩

/-- Concrete firm url for the discovery-cap counterexample oracle. -/
def cex_firm_url : List Char := "https://2gis.ru/firm/1".toList

/-- Counterexample page oracle: the first three result pages show no firm
links, every later page shows one. -/
def cex_pages (n : Nat) : List (List Char) := if 4 ≤ n then [cex_firm_url] else []

/-! ## Helper lemmas about the phone normalizer -/

theorem isDigit_plus_false : Char.isDigit '+' = false := by decide

theorem isDigit_seven_true : Char.isDigit '7' = true := by decide

theorem filter_isDigit_of_all (l : List Char) (h : ∀ a ∈ l, Char.isDigit a) :
    l.filter Char.isDigit = l :=
  List.filter_eq_self.mpr h

theorem filter_plus_seven (t : List Char) (ht : ∀ a ∈ t, Char.isDigit a) :
    ('+' :: '7' :: t).filter Char.isDigit = '7' :: t := by
  rw [List.filter_cons, List.filter_cons, isDigit_plus_false, isDigit_seven_true]
  simp [filter_isDigit_of_all t ht]

theorem filter_plus (t : List Char) (ht : ∀ a ∈ t, Char.isDigit a) :
    ('+' :: t).filter Char.isDigit = t := by
  rw [List.filter_cons, isDigit_plus_false]
  simp [filter_isDigit_of_all t ht]

/-- A string of the exact shape `+7` + ten digits is a fixed point of the
normalizer. -/
theorem normalize_plus7_fixed (t : List Char) (ht : ∀ a ∈ t, Char.isDigit a)
    (hlen : t.length = 10) :
    normalize_phone ('+' :: '7' :: t) = '+' :: '7' :: t := by
  have hne : ('+' :: '7' :: t : List Char) ≠ [] := by simp
  rw [normalize_phone, if_neg hne, filter_plus_seven t ht, normalize_core]
  rw [if_neg (by simp), if_pos]
  · rfl
  · exact ⟨by simp [hlen], Or.inl rfl⟩

/-- A `+`-prefixed digit string that matches neither special shape is a
fixed point of the normalizer. -/
theorem normalize_plus_other_fixed (t : List Char) (ht : ∀ a ∈ t, Char.isDigit a)
    (hne : t ≠ [])
    (h2 : ¬(t.length = 11 ∧ (t.head? = some '7' ∨ t.head? = some '8')))
    (h3 : t.length ≠ 10) :
    normalize_phone ('+' :: t) = '+' :: t := by
  have hcne : ('+' :: t : List Char) ≠ [] := by simp
  rw [normalize_phone, if_neg hcne, filter_plus t ht, normalize_core]
  rw [if_neg hne, if_neg h2, if_neg h3, if_neg]
  simp

/-! ## Claim theorems: phone normalization -/

/-- Claim C2 counterexample: for the input "abc" the stripped digit string
is empty and the input has no leading `+`, so the claim as stated demands
the output `+` + digits = "+", but `_normalize_phone` returns the empty
string (the `if not digits: return ""` early exit). -/
theorem C2_counterexample :
    ("abc".toList.filter Char.isDigit).length ≠ 11 ∧
    ("abc".toList.filter Char.isDigit).length ≠ 10 ∧
    "abc".toList.head? ≠ some '+' ∧
    normalize_phone "abc".toList ≠ '+' :: ("abc".toList.filter Char.isDigit) := by
  decide

/-- Claim C2 (amended): after stripping all non-digit characters, if the
digit string is empty the output is empty; if it has 11 digits beginning
with the trunk digit `7` or `8` the output is `+7` followed by the last 10
digits; if exactly 10 digits the output is `+7` followed by those digits;
otherwise the output is `+` prepended to the digit string unless the input
already carries a leading `+`, in which case the input is returned
unchanged. -/
theorem C2_theorem (phone digits : List Char) (hd : digits = phone.filter Char.isDigit) :
    (digits = [] → normalize_phone phone = []) ∧
    (digits.length = 11 → (digits.head? = some '7' ∨ digits.head? = some '8') →
      normalize_phone phone = '+' :: '7' :: digits.drop 1) ∧
    (digits.length = 10 → normalize_phone phone = '+' :: '7' :: digits) ∧
    (digits ≠ [] →
      ¬(digits.length = 11 ∧ (digits.head? = some '7' ∨ digits.head? = some '8')) →
      digits.length ≠ 10 →
      (phone.head? ≠ some '+' → normalize_phone phone = '+' :: digits) ∧
      (phone.head? = some '+' → normalize_phone phone = phone)) := by
  by_cases hp : phone = []
  · subst hp
    simp at hd
    subst hd
    refine ⟨fun _ => rfl, ?_, ?_, ?_⟩ <;> simp [normalize_phone]
  · rw [normalize_phone, if_neg hp, ← hd]
    refine ⟨?_, ?_, ?_, ?_⟩
    · intro h0
      rw [normalize_core, if_pos h0]
    · intro h11 h78
      rw [normalize_core, if_neg (by intro h0; rw [h0] at h11; simp at h11),
        if_pos ⟨h11, h78⟩, List.drop_one]
    · intro h10
      rw [normalize_core, if_neg (by intro h0; rw [h0] at h10; simp at h10),
        if_neg (by rintro ⟨h11, _⟩; omega), if_pos h10]
    · intro h0 h2 h3
      constructor
      · intro hplus
        rw [normalize_core, if_neg h0, if_neg h2, if_neg h3, if_pos hplus]
      · intro hplus
        rw [normalize_core, if_neg h0, if_neg h2, if_neg h3, if_neg (by simp [hplus])]

/-- Claim C2 witness: the spec's own example, via the 11-digit clause. -/
theorem C2_witness :
    normalize_phone "89261234567".toList = "+79261234567".toList := by
  have h :=
    (( C2_theorem ("89261234567".toList) (("89261234567".toList).filter Char.isDigit) rfl).2.1)
      (by decide) (by decide)
  rw [h]
  decide

/-- Claim C9: `_normalize_phone` is idempotent — a second pass over an
already-normalized phone string changes nothing. -/
theorem C9_theorem (phone : List Char) :
    normalize_phone (normalize_phone phone) = normalize_phone phone := by
  by_cases hp : phone = []
  · subst hp; rfl
  · have hmem : ∀ a ∈ phone.filter Char.isDigit, Char.isDigit a := by
      intro a ha; exact List.of_mem_filter ha
    have hout : normalize_phone phone = normalize_core phone (phone.filter Char.isDigit) := by
      rw [normalize_phone, if_neg hp]
    by_cases h1 : phone.filter Char.isDigit = []
    · have h : normalize_phone phone = [] := by rw [hout, normalize_core, if_pos h1]
      rw [h]; rfl
    · by_cases h2 : (phone.filter Char.isDigit).length = 11 ∧
          ((phone.filter Char.isDigit).head? = some '7' ∨
           (phone.filter Char.isDigit).head? = some '8')
      · have h : normalize_phone phone = '+' :: '7' :: (phone.filter Char.isDigit).tail := by
          rw [hout, normalize_core, if_neg h1, if_pos h2]
        rw [h]
        refine normalize_plus7_fixed _ ?_ ?_
        · intro a ha
          exact hmem a (List.mem_of_mem_tail ha)
        · rw [List.length_tail, h2.1]
      · by_cases h3 : (phone.filter Char.isDigit).length = 10
        · have h : normalize_phone phone = '+' :: '7' :: phone.filter Char.isDigit := by
            rw [hout, normalize_core, if_neg h1, if_neg h2, if_pos h3]
          rw [h]
          exact normalize_plus7_fixed _ hmem h3
        · by_cases h4 : phone.head? ≠ some '+'
          · have h : normalize_phone phone = '+' :: phone.filter Char.isDigit := by
              rw [hout, normalize_core, if_neg h1, if_neg h2, if_neg h3, if_pos h4]
            rw [h]
            exact normalize_plus_other_fixed _ hmem h1 h2 h3
          · have h : normalize_phone phone = phone := by
              rw [hout, normalize_core, if_neg h1, if_neg h2, if_neg h3, if_neg h4]
            rw [h]
            exact h

/-! ## Claim theorems: URL canonicalization -/

theorem takeWhile_idem (p : Char → Bool) (l : List Char) :
    (l.takeWhile p).takeWhile p = l.takeWhile p := by
  induction l with
  | nil => rfl
  | cons a t ih =>
    by_cases h : p a
    · simp [List.takeWhile_cons, h, ih]
    · simp [List.takeWhile_cons, h]

/-- Claim C4 counterexample: a URL carrying a fragment but no query string
is returned unchanged — `href.split("?")[0]` does not strip a fragment
that is not preceded by `?`, contradicting the claim that the fragment is
always stripped. -/
theorem C4_counterexample :
    canonicalize "https://x/firm/1#s".toList = "https://x/firm/1#s".toList ∧
    canonicalize "https://x/firm/1#s".toList ≠ "https://x/firm/1".toList := by
  decide

/-- Claim C4 (amended): canonicalization is idempotent and returns the
prefix of the URL before the first `?` — so the query string, and any
fragment that follows the `?`, are stripped, while a fragment not preceded
by a `?` is kept. -/
theorem C4_theorem (u : List Char) :
    canonicalize (canonicalize u) = canonicalize u ∧
    (∀ c ∈ canonicalize u, c ≠ '?') ∧
    canonicalize u ++ u.dropWhile (fun c => !(c == '?')) = u := by
  unfold canonicalize
  refine ⟨takeWhile_idem _ u, ?_, List.takeWhile_append_dropWhile _ u⟩
  intro c hc
  have h := List.mem_takeWhile_imp hc
  simpa using h

/-- Claim C4 witness: the spec's concrete example, with idempotence at the
same input. -/
theorem C4_witness :
    canonicalize (canonicalize "https://x/firm/1?utm=2#s".toList) =
      canonicalize "https://x/firm/1?utm=2#s".toList ∧
    canonicalize "https://x/firm/1?utm=2#s".toList = "https://x/firm/1".toList :=
  ⟨( C4_theorem ("https://x/firm/1?utm=2#s".toList)).1, by decide⟩

/-! ## Helper lemmas about the website extractor -/

theorem websites_step_inv (st : WebsitesAcc) (href rawText : List Char)
    (h : ∀ w ∈ st.websites, ∀ d ∈ page_ignored_domains, isSubstr d (toLowerL w) = false) :
    ∀ w ∈ (websites_step st href rawText).websites,
      ∀ d ∈ page_ignored_domains, isSubstr d (toLowerL w) = false := by
  simp only [websites_step]
  split_ifs with hEmpty hIgn hKw hCap hSeen hLik
  · exact h
  · exact h
  · exact h
  · exact h
  · intro w hw d hd
    have hIgnF : (page_ignored_domains.any fun d => isSubstr d (toLowerL href)) = false := by
      simpa using hIgn
    have hP : isSubstr d (toLowerL href) = false := by
      have h0 := List.any_eq_false.mp hIgnF d hd
      simpa using h0
    dsimp at hw
    rcases List.mem_cons.mp hw with hwh | hwo
    · subst hwh; exact hP
    · exact h w hwo d hd
  · intro w hw d hd
    have hIgnF : (page_ignored_domains.any fun d => isSubstr d (toLowerL href)) = false := by
      simpa using hIgn
    have hP : isSubstr d (toLowerL href) = false := by
      have h0 := List.any_eq_false.mp hIgnF d hd
      simpa using h0
    dsimp at hw
    rcases List.mem_append.mp hw with hwo | hwh
    · exact h w hwo d hd
    · rw [List.mem_singleton.mp hwh]
      exact hP
  · exact h

theorem extract_websites_inv (links : List (List Char × List Char)) :
    ∀ w ∈ extract_websites links,
      ∀ d ∈ page_ignored_domains, isSubstr d (toLowerL w) = false := by
  have main : ∀ (ls : List (List Char × List Char)) (st : WebsitesAcc),
      (∀ w ∈ st.websites, ∀ d ∈ page_ignored_domains, isSubstr d (toLowerL w) = false) →
      ∀ w ∈ (ls.foldl (fun s l => websites_step s l.1 l.2) st).websites,
        ∀ d ∈ page_ignored_domains, isSubstr d (toLowerL w) = false := by
    intro ls
    induction ls with
    | nil => exact fun st h => h
    | cons a t ih =>
      intro st h
      exact ih _ (websites_step_inv st a.1 a.2 h)
  intro w hw
  exact main links ⟨[], []⟩ (by intro w hw; simp at hw) w (List.take_subset 5 _ hw)

theorem apply_contact_websites (r : Record) (c : Contact) :
    (apply_contact r c).websites = r.websites ∨
    ((apply_contact r c).websites = r.websites ++ [c.value] ∧
      is_ignored_domain c.value = false) := by
  simp only [apply_contact]
  split_ifs with h1 h2 h3 h4 h5 h6 h7 <;> simp_all

theorem apply_contact_web_inv (r : Record) (c : Contact)
    (h : ∀ w ∈ r.websites, is_ignored_domain w = false) :
    ∀ w ∈ (apply_contact r c).websites, is_ignored_domain w = false := by
  intro w hw
  rcases apply_contact_websites r c with he | ⟨he, hig⟩
  · rw [he] at hw
    exact h w hw
  · rw [he] at hw
    rcases List.mem_append.mp hw with hwo | hwh
    · exact h w hwo
    · rw [List.mem_singleton.mp hwh]
      exact hig

theorem contacts_fold_web_inv (cs : List Contact) (r : Record)
    (h : ∀ w ∈ r.websites, is_ignored_domain w = false) :
    ∀ w ∈ (cs.foldl apply_contact r).websites, is_ignored_domain w = false := by
  induction cs generalizing r with
  | nil => exact h
  | cons c t ih => exact ih _ (apply_contact_web_inv r c h)

theorem parse_api_item_web_inv (item : ApiItem) (city : String) :
    ∀ w ∈ (parse_api_item item city).websites, is_ignored_domain w = false := by
  unfold parse_api_item
  have main : ∀ (groups : List ContactGroup) (r : Record),
      (∀ w ∈ r.websites, is_ignored_domain w = false) →
      ∀ w ∈ (groups.foldl (fun r g => g.contacts.foldl apply_contact r) r).websites,
        is_ignored_domain w = false := by
    intro groups
    induction groups with
    | nil => exact fun r h => h
    | cons g gs ih =>
      intro r h
      exact ih _ (contacts_fold_web_inv g.contacts r h)
  exact main item.contact_groups _ (by intro w hw; simp at hw)

/-! ## Claim theorems: website denylist -/

/-- Claim C5 counterexample: with no qualifying page links and the single
email `info@vk.com`, the email-domain fallback of
`_extract_company_details` adds `https://vk.com` to the website list even
though `vk.com` is on the denylist — the fallback only checks the generic
mail-provider list, contradicting the claim that a denylisted domain is
never present (including fallback-added websites). -/
theorem C5_counterexample :
    websites_with_fallback [] ["info@vk.com".toList] = ["https://vk.com".toList] ∧
    "vk.com".toList ∈ page_ignored_domains ∧
    isSubstr "vk.com".toList (toLowerL "https://vk.com".toList) = true := by
  decide

/-- Claim C5 (amended): a link whose lower-cased URL contains a denylisted
domain is never present among the websites harvested from the page by
`_extract_websites`, regardless of position or visible text, and likewise
for the website contacts kept by `parse_api_item`; the email-domain
fallback, however, checks only the generic mail-provider list and can
introduce a denylisted domain. -/
theorem C5_theorem :
    (∀ links : List (List Char × List Char), ∀ w ∈ extract_websites links,
      ∀ d ∈ page_ignored_domains, isSubstr d (toLowerL w) = false) ∧
    (∀ item : ApiItem, ∀ city : String, ∀ w ∈ (parse_api_item item city).websites,
      is_ignored_domain w = false) :=
  ⟨extract_websites_inv, parse_api_item_web_inv⟩

/-- Claim C5 witness: a kept website from a concrete page never contains
the denylisted `vk.com`. -/
theorem C5_witness :
    isSubstr "vk.com".toList (toLowerL "https://example.com".toList) = false :=
  C5_theorem.1 [("https://example.com".toList, "site".toList)]
    "https://example.com".toList (by decide) "vk.com".toList (by decide)

/-! ## Helper lemmas about the final url deduplication of run_parser -/

theorem dedupe_mem_subset (r : Record) :
    ∀ (rs : List Record) (seen : List String), r ∈ dedupe_by_url rs seen → r ∈ rs := by
  intro rs
  induction rs with
  | nil => intro seen hr; simp [dedupe_by_url] at hr
  | cons x rest ih =>
    intro seen hr
    simp only [dedupe_by_url] at hr
    split_ifs at hr with hc
    · rcases List.mem_cons.mp hr with h | h
      · exact h ▸ List.mem_cons_self x rest
      · exact List.mem_cons_of_mem x (ih _ h)
    · exact List.mem_cons_of_mem x (ih _ hr)

theorem dedupe_url_props (r : Record) :
    ∀ (rs : List Record) (seen : List String), r ∈ dedupe_by_url rs seen →
      r.url ≠ "" ∧ r.url ∉ seen := by
  intro rs
  induction rs with
  | nil => intro seen hr; simp [dedupe_by_url] at hr
  | cons x rest ih =>
    intro seen hr
    simp only [dedupe_by_url] at hr
    split_ifs at hr with hc
    · rcases List.mem_cons.mp hr with h | h
      · subst h; exact hc
      · have h2 := ih _ h
        exact ⟨h2.1, fun hs => h2.2 (List.mem_cons_of_mem _ hs)⟩
    · exact ih _ hr

theorem dedupe_urls_nodup :
    ∀ (rs : List Record) (seen : List String),
      ((dedupe_by_url rs seen).map (fun r => r.url)).Nodup := by
  intro rs
  induction rs with
  | nil => intro seen; simp [dedupe_by_url]
  | cons x rest ih =>
    intro seen
    simp only [dedupe_by_url]
    split_ifs with hc
    · simp only [List.map_cons, List.nodup_cons]
      refine ⟨?_, ih _⟩
      intro hmem
      rcases List.mem_map.mp hmem with ⟨r, hr, hurl⟩
      have h2 := (dedupe_url_props r _ _ hr).2
      exact h2 (hurl ▸ List.mem_cons_self x.url seen)
    · exact ih _

theorem dedupe_first_kept (r : Record) :
    ∀ (rs : List Record) (seen : List String), r ∈ dedupe_by_url rs seen →
      rs.find? (fun x => x.url == r.url) = some r := by
  intro rs
  induction rs with
  | nil => intro seen hr; simp [dedupe_by_url] at hr
  | cons x rest ih =>
    intro seen hr
    simp only [dedupe_by_url] at hr
    split_ifs at hr with hc
    · rcases List.mem_cons.mp hr with h | h
      · subst h
        rw [List.find?_cons_of_pos]
        simp
      · have hp := dedupe_url_props r _ _ h
        have hne : (x.url == r.url) = false := by
          simp only [beq_eq_false_iff_ne, ne_eq]
          intro he
          exact hp.2 (he ▸ List.mem_cons_self x.url seen)
        simp only [List.find?, hne]
        exact ih _ h
    · have hp := dedupe_url_props r _ _ hr
      have hne : (x.url == r.url) = false := by
        simp only [beq_eq_false_iff_ne, ne_eq]
        intro he
        push_neg at hc
        have hxne : x.url ≠ "" := by rw [he]; exact hp.1
        exact hp.2 (he ▸ hc hxne)
      simp only [List.find?, hne]
      exact ih _ hr

theorem dedupe_exists (r : Record) (hurl : r.url ≠ "") :
    ∀ (rs : List Record) (seen : List String), r ∈ rs → r.url ∉ seen →
      ∃ r2 ∈ dedupe_by_url rs seen, r2.url = r.url := by
  intro rs
  induction rs with
  | nil => intro seen h; simp at h
  | cons x rest ih =>
    intro seen hmem hseen
    simp only [dedupe_by_url]
    rcases List.mem_cons.mp hmem with hx | hrest
    · subst hx
      rw [if_pos ⟨hurl, hseen⟩]
      exact ⟨r, List.mem_cons_self r _, rfl⟩
    · split_ifs with hc
      · by_cases he : r.url = x.url
        · exact ⟨x, List.mem_cons_self x _, he.symm⟩
        · obtain ⟨r2, h2, h3⟩ := ih (x.url :: seen) hrest (by
            intro hin
            rcases List.mem_cons.mp hin with h4 | h4
            · exact he h4
            · exact hseen h4)
          exact ⟨r2, List.mem_cons_of_mem x h2, h3⟩
      · exact ih seen hrest hseen

/-! ## Claim theorems: output url invariant (C10) -/

/-- Claim C10: in the list `run_parser` returns (and passes to the sink),
every record has a non-empty url, urls are pairwise distinct, every record
kept is the first-collected record bearing its url, and every record with
a non-empty url leaves a representative; records with empty url are
dropped. -/
theorem C10_theorem (rs : List Record) :
    (∀ r ∈ unique_results rs, r.url ≠ "") ∧
    ((unique_results rs).map (fun r => r.url)).Nodup ∧
    (∀ r ∈ unique_results rs, rs.find? (fun x => x.url == r.url) = some r) ∧
    (∀ r ∈ rs, r.url ≠ "" → ∃ r2 ∈ unique_results rs, r2.url = r.url) := by
  refine ⟨?_, dedupe_urls_nodup rs [], ?_, ?_⟩
  · intro r hr
    exact (dedupe_url_props r rs [] hr).1
  · intro r hr
    exact dedupe_first_kept r rs [] hr
  · intro r hr hurl
    exact dedupe_exists r hurl rs [] hr (by simp)

/-- Claim C10 witness: on a concrete run result with a duplicated url and
an empty-url record, the kept record with url "u" is the first-collected
one. -/
theorem C10_witness :
    [sample_record (some "A") "u", sample_record none "",
      sample_record (some "B") "u"].find?
      (fun x => x.url == (sample_record (some "A") "u").url) =
      some (sample_record (some "A") "u") :=
  (C10_theorem [sample_record (some "A") "u", sample_record none "",
    sample_record (some "B") "u"]).2.2.1
    (sample_record (some "A") "u") (by decide)

/-! ## Claim theorems: record validity at the sink (C1) -/

/-- Claim C1 counterexample: a Selenium-extracted record whose name is
`None` (the `h1` lookup failed) flows through `parse_company_page`,
`process_links_chunk` and the final deduplication of `run_parser` into the
returned list — it is silently kept, contradicting the claim that a
Record with empty/null name is dropped before the merge step. -/
theorem C1_counterexample :
    unique_results (process_links_chunk ["https://2gis.ru/firm/1"]
      (fun u => parse_company_page (fun _ => some (sample_record none "")) u)) =
      [sample_record none "https://2gis.ru/firm/1"] ∧
    (sample_record none "https://2gis.ru/firm/1").name = none := by
  decide

theorem add_items_truthy (pis : List ApiItem) :
    ∀ (items : List Record) (city : String) (maxItems : Nat),
      (∀ r ∈ items, name_truthy r.name = true) →
      ∀ r ∈ add_items items pis city maxItems, name_truthy r.name = true := by
  induction pis with
  | nil => intro items city mi h; simpa [add_items] using h
  | cons it rest ih =>
    intro items city mi h
    simp only [add_items]
    split_ifs with h1 h2
    · exact h
    · apply ih
      intro r hr
      rcases List.mem_append.mp hr with h3 | h3
      · exact h r h3
      · rw [List.mem_singleton.mp h3]
        exact h2
    · exact ih items city mi h

theorem collect_loop_truthy :
    ∀ (fuel : Nat) (pages : Nat → ApiPage) (city : String) (maxItems : Nat)
      (items : List Record) (page ce : Nat) (tf : Option Nat),
      (∀ r ∈ items, name_truthy r.name = true) →
      ∀ r ∈ collect_loop pages city maxItems fuel items page ce tf,
        name_truthy r.name = true := by
  intro fuel
  induction fuel with
  | zero => intro pages city mi items page ce tf h; simpa [collect_loop] using h
  | succ n ih =>
    intro pages city mi items page ce tf h
    simp only [collect_loop]
    split_ifs with h1 h2 h3 h4
    · exact h
    · exact h
    · exact ih pages city mi items (page + 1) (ce + 1) _ h
    · exact add_items_truthy _ items city mi h
    · exact ih pages city mi _ (page + 1) 0 _ (add_items_truthy _ items city mi h)

/-- Claim C1 (amended): records collected through the API path are filtered
to truthy (non-empty, non-null) names before entering `all_results`, and
the final merge never drops a record because of its name — every record in
the sink list either has a truthy name or came from the Selenium chunk
results. -/
theorem C1_theorem (pages : Nat → ApiPage) (city : String) (maxItems fuel : Nat)
    (chunkRecs : List Record) (r : Record)
    (hr : r ∈ unique_results (collect_items_via_api pages city maxItems fuel ++ chunkRecs)) :
    name_truthy r.name = true ∨ r ∈ chunkRecs := by
  have hmem := dedupe_mem_subset r _ [] hr
  rcases List.mem_append.mp hmem with h1 | h1
  · exact Or.inl (collect_loop_truthy fuel pages city maxItems [] 1 0 none
      (by intro r hr0; simp at hr0) r h1)
  · exact Or.inr h1

/-- Claim C1 witness. -/
theorem C1_witness :
    name_truthy (sample_record (some "S") "u").name = true ∨
      sample_record (some "S") "u" ∈ [sample_record (some "S") "u"] :=
  C1_theorem (fun _ => ⟨[], 0⟩) "moscow" 5 1 [sample_record (some "S") "u"]
    (sample_record (some "S") "u") (by decide)

/-! ## Claim theorems: retry ceiling (C6) -/

/-- Claim C6: a page whose visit fails on every attempt up to the fixed
retry ceiling yields no Record — `parse_company_page` returns `None`
rather than raising — and the worker continues with the subsequent URLs of
its chunk: the chunk result is exactly the result of processing the rest. -/
theorem C6_theorem (attempts : String → Nat → Option Record) (url : String)
    (rest : List String)
    (h : ∀ i, i < max_retries → attempts url i = none) :
    parse_company_page (attempts url) url = none ∧
    process_links_chunk (url :: rest) (fun u => parse_company_page (attempts u) u) =
      process_links_chunk rest (fun u => parse_company_page (attempts u) u) := by
  have hnone : parse_company_page (attempts url) url = none := by
    have h0 := h 0 (by simp [max_retries])
    have h1 := h 1 (by simp [max_retries])
    have h2 := h 2 (by simp [max_retries])
    have hrange : List.range max_retries = [0, 1, 2] := by decide
    rw [parse_company_page, hrange]
    simp [List.findSome?, h0, h1, h2]
  refine ⟨hnone, ?_⟩
  simp only [process_links_chunk, List.filterMap_cons, hnone]

/-- Claim C6 witness: a concrete oracle failing all three attempts. -/
theorem C6_witness :
    parse_company_page ((fun _ _ => none : String → Nat → Option Record) "u") "u" = none ∧
    process_links_chunk ["u", "v"]
      (fun x => parse_company_page ((fun _ _ => none : String → Nat → Option Record) x) x) =
      process_links_chunk ["v"]
        (fun x => parse_company_page ((fun _ _ => none : String → Nat → Option Record) x) x) :=
  C6_theorem (fun _ _ => none) "u" ["v"] (fun _ _ => rfl)

/-! ## Claim theorems: global dedup before fan-out (C3) -/

theorem chunks_aux_flatten (cs : Nat) (hcs : 1 ≤ cs) :
    ∀ (fuel : Nat) (l : List String), l.length ≤ fuel →
      (chunks_aux cs fuel l).flatten = l := by
  intro fuel
  induction fuel with
  | zero =>
    intro l hl
    have h0 : l = [] := List.eq_nil_of_length_eq_zero (Nat.le_zero.mp hl)
    subst h0
    rfl
  | succ n ih =>
    intro l hl
    cases l with
    | nil => rfl
    | cons x xs =>
      simp only [chunks_aux, List.flatten_cons]
      rw [ih ((x :: xs).drop cs) (by
        rw [List.length_drop]
        simp only [List.length_cons] at hl ⊢
        omega)]
      exact List.take_append_drop cs (x :: xs)

/-- Claim C3: the URL set handed to the phase-2 workers is duplicate-free,
is a subset of the union of the per-niche discovered links, the merged
discovery set's size equals the cardinality of the mathematical set union
of the individual discovery runs, every discovered link not already
covered by the API results survives, and the chunk partition handed to the
workers covers exactly the frozen deduplicated set — the dedup is done
once, before any worker starts. -/
theorem C3_theorem (perNiche : List (List String)) (apiUrls : List String) (workers : Nat) :
    (phase2_links perNiche apiUrls).Nodup ∧
    (∀ l ∈ phase2_links perNiche apiUrls, l ∈ perNiche.flatten) ∧
    (merged_discovery perNiche).length =
      (perNiche.foldr (fun run acc => run.toFinset ∪ acc) (∅ : Finset String)).card ∧
    (∀ l ∈ perNiche.flatten, l ∉ apiUrls → l ∈ phase2_links perNiche apiUrls) ∧
    (make_chunks (phase2_links perNiche apiUrls)
        (chunk_size (phase2_links perNiche apiUrls).length workers)).flatten =
      phase2_links perNiche apiUrls := by
  refine ⟨?_, ?_, ?_, ?_, ?_⟩
  · exact (List.nodup_dedup _).filter _
  · intro l hl
    exact List.mem_dedup.mp (List.mem_of_mem_filter hl)
  · rw [merged_discovery, ← List.card_toFinset]
    congr 1
    induction perNiche with
    | nil => simp
    | cons a t ih => simp [List.toFinset_append, ih]
  · intro l hl hnot
    refine List.mem_filter.mpr ⟨List.mem_dedup.mpr hl, ?_⟩
    simpa using hnot
  · exact chunks_aux_flatten _ (Nat.le_trans (by norm_num) (Nat.le_max_left 5 _)) _ _ le_rfl

/-- Claim C3 witness: a link discovered in two niches and not already held
by the API results survives into the frozen phase-2 set. -/
theorem C3_witness :
    "b" ∈ phase2_links [["a", "b"], ["b"]] ["a"] :=
  (( C3_theorem [["a", "b"], ["b"]] ["a"] 2).2.2.2.1) "b" (by decide) (by decide)

/-! ## Claim theorems: discovery cap (C7) -/

theorem add_items_length (pis : List ApiItem) :
    ∀ (items : List Record) (city : String) (maxItems : Nat),
      items.length ≤ maxItems → (add_items items pis city maxItems).length ≤ maxItems := by
  induction pis with
  | nil => intro items city mi h; simpa [add_items] using h
  | cons it rest ih =>
    intro items city mi h
    simp only [add_items]
    split_ifs with h1 h2
    · exact h
    · apply ih
      simp only [List.length_append, List.length_singleton]
      omega
    · exact ih items city mi h

theorem collect_loop_length :
    ∀ (fuel : Nat) (pages : Nat → ApiPage) (city : String) (maxItems : Nat)
      (items : List Record) (page ce : Nat) (tf : Option Nat),
      items.length ≤ maxItems →
      (collect_loop pages city maxItems fuel items page ce tf).length ≤ maxItems := by
  intro fuel
  induction fuel with
  | zero => intro pages city mi items page ce tf h; simpa [collect_loop] using h
  | succ n ih =>
    intro pages city mi items page ce tf h
    simp only [collect_loop]
    split_ifs with h1 h2 h3 h4
    · exact h
    · exact h
    · exact ih pages city mi items (page + 1) (ce + 1) _ h
    · exact add_items_length _ items city mi h
    · exact ih pages city mi _ (page + 1) 0 _ (add_items_length _ items city mi h)

/-- Claim C7 counterexample: with a page oracle showing no firm links on
pages 1-3 and one firm link on every later page (within the page ceiling
of `12 // 12 + 5 = 6` pages), the pagination collector stops after three
consecutive empty pages and returns nothing, although one distinct
canonical link was available — so the returned size is not
`min(itemCap, available)`. -/
theorem C7_counterexample :
    get_search_links_with_pagination cex_pages (fun _ => false) 12 = [] ∧
    (((List.range' 1 6).map cex_pages).flatten.map canonicalize).dedup.length = 1 ∧
    (get_search_links_with_pagination cex_pages (fun _ => false) 12).length ≠ min 12 1 := by
  decide

/-- Claim C7 (amended): both collectors never return more than `itemCap`
results; they may return fewer than `min(itemCap, available)` when items
lie beyond their termination limits (consecutive-empty cutoffs, page
ceiling). -/
theorem C7_theorem :
    (∀ (pages : Nat → List (List Char)) (endMarker : Nat → Bool) (maxItems : Nat),
      (get_search_links_with_pagination pages endMarker maxItems).length ≤ maxItems) ∧
    (∀ (pages : Nat → ApiPage) (city : String) (maxItems fuel : Nat),
      (collect_items_via_api pages city maxItems fuel).length ≤ maxItems) := by
  constructor
  · intro pages em mi
    simp only [get_search_links_with_pagination]
    rw [List.length_take]
    exact min_le_left _ _
  · intro pages city mi fuel
    exact collect_loop_length fuel pages city mi [] 1 0 none (by simp)

/-! ## Claim theorems: region-lookup fallback (C8) -/

theorem lookup_ne_zero (l : List (String × Nat)) (hl : ∀ p ∈ l, p.2 ≠ 0) :
    ∀ (s : String) (rid : Nat), l.lookup s = some rid → rid ≠ 0 := by
  induction l with
  | nil => intro s rid h; simp [List.lookup] at h
  | cons p t ih =>
    intro s rid h
    obtain ⟨k, v⟩ := p
    simp only [List.lookup] at h
    split at h
    · cases h
      exact hl (k, rid) (List.mem_cons_self _ _)
    · exact ih (fun q hq => hl q (List.mem_cons_of_mem _ hq)) s rid h

theorem city_map_pos : ∀ p ∈ city_map, p.2 ≠ 0 := by decide

/-- Claim C8: a city name that `get_region_id` fails to resolve makes
`search_items` fall back to the default region (32, Moscow) and embed the
city name in the free-text query; a resolvable city uses the resolved
region id and leaves the query unchanged. -/
theorem C8_theorem (city query : String) :
    (get_region_id city = none → search_params city query = (32, query ++ " " ++ city)) ∧
    (∀ rid, get_region_id city = some rid → search_params city query = (rid, query)) := by
  constructor
  · intro h
    simp only [search_params, h]
  · intro rid h
    have hne : rid ≠ 0 := lookup_ne_zero city_map city_map_pos (normalize_city city) rid h
    simp only [search_params, h]
    rw [if_pos hne]

/-- Claim C8 witness: an unresolvable city falls back to region 32 with the
city appended to the query; "moscow" resolves to 32 with the query kept. -/
theorem C8_witness :
    search_params "atlantis" "cafe" = (32, "cafe" ++ " " ++ "atlantis") ∧
    search_params "moscow" "cafe" = (32, "cafe") :=
  ⟨( C8_theorem "atlantis" "cafe").1 (by decide),
   ( C8_theorem "moscow" "cafe").2 32 (by decide)⟩

end TwoGis
